import Mathlib

/-!
# Expense tracker (`script.js`): store handlers and summary engine

A shallow embedding of the expense-handling and summary code of `script.js`.

* JavaScript numbers are IEEE-754 doubles.  Amounts are non-negative (the data model of
  the store), so the values that occur are the non-negative finite doubles and
  `Infinity`; `NaN`, negative numbers and `-0` do not occur.  Every finite double is an
  integer multiple of `2^-1074`, and `Number.fin n` stands for `n * 2^-1074`.
  `+` is exact addition followed by rounding to nearest, ties to even.
* The `date` of a record is the value of a date input, a string `YYYY-MM-DD`.
  `new Date(string)` reads such a string as midnight UTC of that day.
* A `Date` is a time value in milliseconds since the epoch (UTC), or `NaN`
  (`none`).  The getters `getFullYear`, `getMonth`, `getDate` read the fields of the
  *local* time, `t + tz.offset t`, where the zone `tz` gives the offset at instant `t`.
  A clock reading is a number of milliseconds since the epoch, a natural number; the
  reading of `updateSummary` and the two readings of `renderBarChart` are separate
  arguments.
* `updateSummary` first formats the month and year of `now` with `toLocaleString`;
  the format throws a `RangeError` on an option value that it does not accept, and the
  function then ends with that exception (`Except.error`).
* `categoryTotals` is a JavaScript object that starts as `{}`: reads fall back to
  `Object.prototype`, keys that are array indices are enumerated first, in ascending
  order, and the other keys follow in the order of their creation.
* The DOM, `localStorage` and the chart library are not modelled; the functions return
  the data that the source hands to them.
-/

namespace ExpenseTracker

/-! ## Numbers -/

/-- A non-negative JavaScript number: `fin n` is the value `n * 2^-1074`,
`inf` is `Infinity`.  The doubles are the values `fin n` with `n` below `2^2098` and of
at most 53 significant bits. -/
inductive Number where
  | fin (n : Nat)
  | inf
deriving DecidableEq, Repr

/-- The number 1 in units of `2^-1074`. -/
@[irreducible] def Number.one : Nat := 2 ^ 1074

/-- The least value, in units of `2^-1074`, that no longer rounds to a finite double:
`2^1024`. -/
@[irreducible] def Number.overflow : Nat := 2 ^ 2098

/-- The double with the whole-number value `k`. -/
def Number.ofNat (k : Nat) : Number := .fin (k * Number.one)

instance (k : Nat) : OfNat Number k := ⟨Number.ofNat k⟩

/-- Number of binary digits of `n`; `fuel` bounds the number of halvings. -/
def bitLengthAux : Nat → Nat → Nat
  | 0, _ => 0
  | fuel + 1, n => if n = 0 then 0 else bitLengthAux fuel (n / 2) + 1

/-- Number of binary digits of `n`. -/
def bitLength (n : Nat) : Nat := bitLengthAux n n

/-- Rounding of an exact non-negative value (in units of `2^-1074`) to a double:
53 significant bits, round to nearest, ties to even, overflow to `Infinity`. -/
def roundToDouble (s : Nat) : Number :=
  if s < 2 ^ 53 then .fin s
  else
    let k := bitLength s - 53
    let q := s / 2 ^ k
    let r := s % 2 ^ k
    let half := 2 ^ (k - 1)
    let q1 := if r < half then q else if half < r then q + 1 else if q % 2 = 0 then q else q + 1
    if q1 * 2 ^ k < Number.overflow then .fin (q1 * 2 ^ k) else .inf

/-- The JavaScript `+` on numbers. -/
def Number.add : Number → Number → Number
  | .fin a, .fin b => roundToDouble (a + b)
  | _, _ => .inf

instance : Add Number := ⟨Number.add⟩

/-- The JavaScript `<` on numbers. -/
def Number.blt : Number → Number → Bool
  | .fin a, .fin b => decide (a < b)
  | .fin _, .inf => true
  | .inf, _ => false

instance : LT Number := ⟨fun a b => Number.blt a b = true⟩

instance : LE Number := ⟨fun a b => Number.blt b a = false⟩

instance (a b : Number) : Decidable (a < b) := inferInstanceAs (Decidable (Number.blt a b = true))

instance (a b : Number) : Decidable (a ≤ b) := inferInstanceAs (Decidable (Number.blt b a = false))

/-- The value of a finite number in units of `2^-1074` (0 for `Infinity`). -/
def Number.units : Number → Nat
  | .fin n => n
  | .inf => 0

/-- Truthiness of a number, as used by `||`: only `0` is falsy here. -/
def Number.truthy (x : Number) : Bool := x != 0

/-! ## Dates -/

/-- Milliseconds per day. -/
def msPerDay : Int := 86400000

/-- The day number of a time value. -/
def Day (t : Int) : Int := t / msPerDay

/-- Leap years of the proleptic Gregorian calendar. -/
def isLeapYear (y : Int) : Bool := y % 4 = 0 ∧ (y % 100 ≠ 0 ∨ y % 400 = 0)

/-- Number of days of month `m` (1 to 12) of year `y`. -/
def monthLength (y m : Int) : Int :=
  if m = 2 then (if isLeapYear y then 29 else 28)
  else if m = 4 ∨ m = 6 ∨ m = 9 ∨ m = 11 then 30
  else 31

/-- The day number (days since 1970-01-01) of the calendar date `y-m-d`, `m` from 1 to 12. -/
def daysFromCivil (y m d : Int) : Int :=
  let y1 := if m ≤ 2 then y - 1 else y
  let era := y1 / 400
  let yoe := y1 - era * 400
  let doy := (153 * (if 2 < m then m - 3 else m + 9) + 2) / 5 + d - 1
  let doe := yoe * 365 + yoe / 4 - yoe / 100 + doy
  era * 146097 + doe - 719468

/-- The calendar date of day `doy` (from 0) of the year that starts on 1 March of
year `y`: the year, the month (1 to 12) and the day of the month. -/
def dateOfMarchYear (y doy : Int) : Int × Int × Int :=
  let mp := (5 * doy + 2) / 153
  let d := doy - (153 * mp + 2) / 5 + 1
  let m := if mp < 10 then mp + 3 else mp - 9
  (if m ≤ 2 then y + 1 else y, m, d)

/-- The calendar date (year, month 1 to 12, day of month) of a day number. -/
def civilFromDays (z : Int) : Int × Int × Int :=
  let z1 := z + 719468
  let era := z1 / 146097
  let doe := z1 - era * 146097
  let yoe := (doe - doe / 1460 + doe / 36524 - doe / 146096) / 365
  let doy := doe - (365 * yoe + yoe / 4 - yoe / 100)
  dateOfMarchYear (yoe + era * 400) doy

/-- The year of a time value. -/
def YearFromTime (t : Int) : Int := (civilFromDays (Day t)).1

/-- The month of a time value, 0 for January to 11 for December. -/
def MonthFromTime (t : Int) : Int := (civilFromDays (Day t)).2.1 - 1

/-- The day of the month of a time value, from 1. -/
def DateFromTime (t : Int) : Int := (civilFromDays (Day t)).2.2

/-- The day number of day `date` of month `month` (0-based, any integer) of `year`:
months outside 0..11 carry into the year, and `date` counts from the first of the month
(so `date = 0` is the last day of the month before). -/
def MakeDay (year month date : Int) : Int :=
  let ym := year + month / 12
  let mn := month % 12
  daysFromCivil ym (mn + 1) 1 + date - 1

/-- A time zone: the offset of local time from UTC at each instant, in milliseconds.
Offsets stay within a day. -/
structure Zone where
  offset : Int → Int
  bounded : ∀ t, -msPerDay ≤ offset t ∧ offset t ≤ msPerDay

/-- The zone UTC. -/
def Zone.utc : Zone :=
  ⟨fun _ => 0, fun _ => by show -msPerDay ≤ (0 : Int) ∧ (0 : Int) ≤ msPerDay; decide⟩

/-- The zone that stays five hours behind UTC. -/
def Zone.utcMinus5 : Zone :=
  ⟨fun _ => -18000000,
    fun _ => by show -msPerDay ≤ (-18000000 : Int) ∧ (-18000000 : Int) ≤ msPerDay; decide⟩

/-- Local time of a UTC time value. -/
def LocalTime (tz : Zone) (t : Int) : Int := t + tz.offset t

/-- The `date` field of a record: the value of a date input, `YYYY-MM-DD`. -/
structure DateStr where
  year : Int
  month : Int
  day : Int
deriving DecidableEq, Repr

/-- A date string that the parser accepts: a year of four digits, a month from 1 to 12
and a day from 1 to 31. -/
def DateStr.accepted (s : DateStr) : Bool :=
  decide (0 ≤ s.year ∧ s.year ≤ 9999 ∧ 1 ≤ s.month ∧ s.month ≤ 12 ∧ 1 ≤ s.day ∧ s.day ≤ 31)

/-- The time value of `new Date(s)` for a date-only string: midnight UTC of that day,
`NaN` (`none`, an invalid date) when the string is not accepted, as is the empty
value of a date input left blank.  A day beyond the length of the month is carried
into the next month, as V8 does (engines differ on such strings, which a date input
does not produce). -/
def parseDate (s : DateStr) : Option Int :=
  if s.accepted then some (MakeDay s.year (s.month - 1) s.day * msPerDay) else none

/-- The method `getFullYear()` of a date with time value `d`. -/
def getFullYear (tz : Zone) (d : Option Int) : Option Int :=
  d.map (fun t => YearFromTime (LocalTime tz t))

/-- The method `getMonth()` of a date with time value `d`. -/
def getMonth (tz : Zone) (d : Option Int) : Option Int :=
  d.map (fun t => MonthFromTime (LocalTime tz t))

/-- The method `getDate()` of a date with time value `d`. -/
def getDate (tz : Zone) (d : Option Int) : Option Int :=
  d.map (fun t => DateFromTime (LocalTime tz t))

/-- The operator `===` on the results of the getters; `NaN` equals nothing. -/
def strictEq : Option Int → Option Int → Bool
  | some a, some b => a == b
  | _, _ => false

/-- The value of `new Date(year, month, date).getDate()`.  The constructor takes its
fields in local time and `getDate` reads local time, so the zone does not enter; years
0 to 99 stand for 1900 to 1999. -/
def dateOfFields (year month date : Int) : Int :=
  let yr := if 0 ≤ year ∧ year ≤ 99 then 1900 + year else year
  (civilFromDays (MakeDay yr month date)).2.2

/-! ## Expense store -/

/-- An expense record. -/
structure Expense where
  id : Int
  description : String
  amount : Number
  category : String
  date : DateStr
deriving DecidableEq, Repr

/-- The submit handler of the expense form: `now` is the reading of `Date.now()`,
the other arguments are the values of the form fields (the amount after `parseFloat`).
Returns the store after `expenses.push(newExpense)`. -/
def submitHandler (expenses : List Expense) (now : Nat) (description : String)
    (amount : Number) (category : String) (date : DateStr) : List Expense :=
  let newExpense : Expense :=
    { id := now, description := description, amount := amount,
      category := category, date := date }
  expenses ++ [newExpense]

/-- A sequence of submissions, each with its own clock reading and field values. -/
def submitAll (expenses : List Expense)
    (subs : List (Nat × String × Number × String × DateStr)) : List Expense :=
  subs.foldl (fun es s => submitHandler es s.1 s.2.1 s.2.2.1 s.2.2.2.1 s.2.2.2.2) expenses

/-- The click handler of the expense list: `isDeleteBtn` tells whether the target has
class `delete-btn`, `id` is `parseInt` of its `data-id`. -/
def deleteHandler (expenses : List Expense) (isDeleteBtn : Bool) (id : Int) : List Expense :=
  if isDeleteBtn then expenses.filter (fun expense => expense.id != id) else expenses

/-! ## Summary -/

/-- The filter of `updateSummary`: the records whose date has the month and year of `now`. -/
def monthlyExpenses (tz : Zone) (now : Nat) (expenses : List Expense) : List Expense :=
  let currentMonth := getMonth tz (some (now : Int))
  let currentYear := getFullYear tz (some (now : Int))
  expenses.filter (fun expense =>
    let expenseDate := parseDate expense.date
    strictEq (getMonth tz expenseDate) currentMonth &&
      strictEq (getFullYear tz expenseDate) currentYear)

/-- The `total` of `updateSummary`. -/
def total (monthly : List Expense) : Number :=
  monthly.foldl (fun sum expense => sum + expense.amount) 0

/-- A value read from or stored in the `categoryTotals` object: a number; a string
(`text`), which is what `+` gives when its left operand is not a number (the text is
not modelled); or a function or object inherited from `Object.prototype`. -/
inductive Value where
  | num (x : Number)
  | text
  | inherited
deriving DecidableEq, Repr

/-- The names of the properties of `Object.prototype`. -/
def prototypeNames : List String :=
  ["constructor", "__defineGetter__", "__defineSetter__", "hasOwnProperty",
   "__lookupGetter__", "__lookupSetter__", "isPrototypeOf", "propertyIsEnumerable",
   "toString", "valueOf", "__proto__", "toLocaleString"]

/-- The number written by a list of decimal digits, after the digits already read. -/
def digitsValue : List Char → Nat → Option Nat
  | [], acc => some acc
  | c :: cs, acc =>
    if '0' ≤ c ∧ c ≤ '9' then digitsValue cs (10 * acc + (c.toNat - '0'.toNat)) else none

/-- The array index that a property key denotes, if it denotes one: the key is the
decimal writing, without leading zeros, of a number below `2^32 - 1`. -/
def arrayIndex (key : String) : Option Nat :=
  match key.data with
  | [] => none
  | c :: cs =>
    if c = '0' ∧ cs ≠ [] then none
    else
      match digitsValue (c :: cs) 0 with
      | some n => if n < 4294967295 then some n else none
      | none => none

/-- Lookup of an own property of an object given by its own properties in the order of
enumeration. -/
def ownGet (o : List (String × Value)) (k : String) : Option Value :=
  match o with
  | [] => none
  | (k1, v) :: rest => if k1 = k then some v else ownGet rest k

/-- Property read `o[k]` on an object that started as `{}`: the own property, else the
property that `Object.prototype` has under that name, else `undefined` (`none`). -/
def objGet (o : List (String × Value)) (k : String) : Option Value :=
  match ownGet o k with
  | some v => some v
  | none => if k ∈ prototypeNames then some Value.inherited else none

/-- Change of the value of an own property, which keeps its place. -/
def ownReplace (o : List (String × Value)) (k : String) (v : Value) : List (String × Value) :=
  match o with
  | [] => []
  | (k1, v1) :: rest => if k1 = k then (k1, v) :: rest else (k1, v1) :: ownReplace rest k v

/-- Creation of an own property whose key is the array index `n`: it goes before the
first key that is a greater array index or no array index. -/
def insertIndex (o : List (String × Value)) (n : Nat) (k : String) (v : Value) :
    List (String × Value) :=
  match o with
  | [] => [(k, v)]
  | (k1, v1) :: rest =>
    match arrayIndex k1 with
    | some n1 => if n1 < n then (k1, v1) :: insertIndex rest n k v else (k, v) :: (k1, v1) :: rest
    | none => (k, v) :: (k1, v1) :: rest

/-- Property write `o[k] = v` of a number or a string on an object that started as `{}`.
The key `__proto__` is the setter of `Object.prototype`, which ignores such a value.
An existing key keeps its place; a new key that is an array index goes among the
array indices, in ascending order; any other new key goes last.  The list is in the
order in which `for...in` visits the keys. -/
def objSet (o : List (String × Value)) (k : String) (v : Value) : List (String × Value) :=
  if k = "__proto__" then o
  else if (ownGet o k).isSome then ownReplace o k v
  else
    match arrayIndex k with
    | some n => insertIndex o n k v
    | none => o ++ [(k, v)]

/-- The expression `v || 0` for a value read from the object (`none` is `undefined`). -/
def orZero : Option Value → Value
  | some (Value.num x) => if x.truthy then Value.num x else Value.num 0
  | some Value.text => Value.text
  | some Value.inherited => Value.inherited
  | none => Value.num 0

/-- The expression `v + amount` for a number `amount`: the sum of two numbers, a string
when `v` is a string, a function or an object. -/
def plus (v : Value) (amount : Number) : Value :=
  match v with
  | Value.num x => Value.num (x + amount)
  | Value.text => Value.text
  | Value.inherited => Value.text

/-- The `categoryTotals` of `updateSummary`. -/
def categoryTotals (monthly : List Expense) : List (String × Value) :=
  monthly.foldl
    (fun acc expense =>
      objSet acc expense.category (plus (orZero (objGet acc expense.category)) expense.amount))
    []

/-- One round of the top-category loop, on the pair `(topCategory, maxAmount)`.  A string
compared with a number by `>` is converted to `NaN`, and the comparison is false. -/
def topStep (categoryTotals : List (String × Value)) (st : String × Number)
    (category : String) : String × Number :=
  match objGet categoryTotals category with
  | some (Value.num v) => if st.2 < v then (category, v) else st
  | _ => st

/-- The top-category loop of `updateSummary` over the keys of `categoryTotals`. -/
def topCategory (categoryTotals : List (String × Value)) : String :=
  ((categoryTotals.map Prod.fst).foldl (topStep categoryTotals) ("N/A", 0)).1

/-- The pun strings, by tier. -/
def tier0 : String := "Just getting started? Let's make it rain... responsibly."

/-- The pun of tier 1. -/
def tier1 : String := "Looking good! Your wallet is practically singing."

/-- The pun of tier 2. -/
def tier2 : String := "Making it happen! You're an economic engine."

/-- The pun of tier 3. -/
def tier3 : String := "Are you treating yourself? Because you should."

/-- The pun of tier 4. -/
def tier4 : String := "Your credit card is getting a workout. Hope it's been stretching!"

/-- The pun of tier 5. -/
def tier5 : String := "Wow, a true patron of the economy! Your transactions are legendary."

/-- The function `getSpendingPun`. -/
def getSpendingPun (total : Number) : String :=
  if total = 0 then tier0
  else if total < 100 then tier1
  else if total < 500 then tier2
  else if total < 1000 then tier3
  else if total < 2000 then tier4
  else tier5

/-- The index of the tier a pun string belongs to (6 for any other string). -/
def tierIndex (s : String) : Nat :=
  [tier0, tier1, tier2, tier3, tier4, tier5].indexOf s

/-- The `daysInMonth` of `renderBarChart`: `now1` is the clock reading of
`new Date().getFullYear()`, `now2` the one of `new Date().getMonth()`. -/
def daysInMonth (tz : Zone) (now1 now2 : Nat) : Int :=
  dateOfFields (YearFromTime (LocalTime tz now1)) (MonthFromTime (LocalTime tz now2) + 1) 0

/-- An element of the `dailyTotals` array: a number, `NaN`, or no element (a hole). -/
inductive Cell where
  | num (x : Number)
  | nan
  | hole
deriving DecidableEq, Repr

/-- The expression `dailyTotals[day] + amount`, where the read gives an element or
`undefined` (`none`, also for a hole): a number plus `amount`, else `NaN`. -/
def cellPlus : Option Cell → Number → Cell
  | some (Cell.num x), amount => Cell.num (x + amount)
  | _, _ => Cell.nan

/-- The statement `dailyTotals[day] += amount`.  An index inside the array changes that
element.  An index at or beyond the length makes the array longer: holes up to the
index and `NaN` at the index.  A negative index or `NaN` (`none`) adds a property that
is no element of the array. -/
def addAt (dailyTotals : List Cell) (day : Option Int) (amount : Number) : List Cell :=
  match day with
  | some i =>
    if i < 0 then dailyTotals
    else if i < dailyTotals.length then
      dailyTotals.set i.toNat (cellPlus (dailyTotals.get? i.toNat) amount)
    else
      dailyTotals ++ List.replicate (i.toNat - dailyTotals.length) Cell.hole ++ [Cell.nan]
  | none => dailyTotals

/-- The 0-based day index of a record in `renderBarChart`. -/
def dayIndex (tz : Zone) (expense : Expense) : Option Int :=
  (getDate tz (parseDate expense.date)).map (fun d => d - 1)

/-- The `dailyTotals` of `renderBarChart`. -/
def dailyTotals (tz : Zone) (now1 now2 : Nat) (monthly : List Expense) : List Cell :=
  monthly.foldl (fun arr expense => addAt arr (dayIndex tz expense) expense.amount)
    (List.replicate (daysInMonth tz now1 now2).toNat (Cell.num 0))

/-- An exception thrown by the code. -/
inductive JSError where
  | rangeError
deriving DecidableEq, Repr

/-- The values that a date format accepts for its option `year`. -/
def yearOptionValues : List String := ["2-digit", "numeric"]

/-- The values that a date format accepts for its option `month`. -/
def monthOptionValues : List String := ["2-digit", "numeric", "narrow", "short", "long"]

/-- Reading of an option of a date format: a value that is not accepted throws a
`RangeError`. -/
def getOption (accepted : List String) (value : String) : Except JSError String :=
  if value ∈ accepted then Except.ok value else Except.error JSError.rangeError

/-- The call `now.toLocaleString('default', { month: month, year: year })` on the date
of a clock reading.  The format reads its option `year`, then its option `month`; the
text that it returns is not modelled. -/
def toLocaleString (month year : String) : Except JSError Unit :=
  (getOption yearOptionValues year).bind fun _ =>
    (getOption monthOptionValues month).bind fun _ => Except.ok ()

/-- The values computed by `updateSummary`. -/
structure Summary where
  monthlyExpenses : List Expense
  total : Number
  categoryTotals : List (String × Value)
  topCategory : String
  pun : String
  dailyTotals : List Cell
deriving Repr

/-- The function `updateSummary`.  `tz` is the zone, `now` the clock reading of
`updateSummary`, `now1` and `now2` the clock readings of `renderBarChart`.  The first
statement after the clock reading formats the month and year of `now` with the options
`{ month: 'long', year: 'long' }`; the rest is run when that statement returns. -/
def updateSummary (tz : Zone) (now now1 now2 : Nat) (expenses : List Expense) :
    Except JSError Summary :=
  (toLocaleString "long" "long").bind fun _ =>
    let monthly := monthlyExpenses tz now expenses
    let total := total monthly
    let categoryTotals := categoryTotals monthly
    Except.ok
      { monthlyExpenses := monthly
        total := total
        categoryTotals := categoryTotals
        topCategory := topCategory categoryTotals
        pun := getSpendingPun total
        dailyTotals := dailyTotals tz now1 now2 monthly }

/-! ## Sample inputs -/

/-- The double nearest to 0.1, `3602879701896397 * 2^-55`. -/
def Number.point1 : Number := .fin (3602879701896397 * 2 ^ 1019)

/-- The double nearest to 0.2, `3602879701896397 * 2^-54`. -/
def Number.point2 : Number := .fin (3602879701896397 * 2 ^ 1020)

/-- The double nearest to 0.3, `5404319552844595 * 2^-54`. -/
def Number.point3 : Number := .fin (5404319552844595 * 2 ^ 1020)

/-- The double nearest to 0.6, `5404319552844595 * 2^-53`. -/
def Number.point6 : Number := .fin (5404319552844595 * 2 ^ 1021)

/-- The double after the one nearest to 0.6, printed as `0.6000000000000001`. -/
def Number.point6up : Number := .fin (5404319552844596 * 2 ^ 1021)

/-- The clock reading of 2024-03-15 12:00:00 UTC. -/
def march15 : Nat := 1710504000000

/-- Scenario A of the specification, in March 2024. -/
def scenarioA : List Expense :=
  [⟨1, "lunch", 50, "Food", ⟨2024, 3, 5⟩⟩,
   ⟨2, "dinner", 70, "Food", ⟨2024, 3, 5⟩⟩,
   ⟨3, "bus", 30, "Transport", ⟨2024, 3, 10⟩⟩]

/-- Three small expenses of March 2024: 0.1, 0.2 and 0.3. -/
def smallChange : List Expense :=
  [⟨1, "gum", Number.point1, "Food", ⟨2024, 3, 5⟩⟩,
   ⟨2, "bus", Number.point2, "Transport", ⟨2024, 3, 6⟩⟩,
   ⟨3, "tram", Number.point3, "Transport", ⟨2024, 3, 6⟩⟩]

/-- An expense dated on the first of March 2024 and one dated on the first of April. -/
def firstDays : List Expense :=
  [⟨1, "rent", 900, "Housing", ⟨2024, 3, 1⟩⟩,
   ⟨2, "rent", 900, "Housing", ⟨2024, 4, 1⟩⟩]

/-- Scenario C of the specification: two categories with the same total, `Food` first. -/
def tieFoodFirst : List Expense :=
  [⟨1, "lunch", 100, "Food", ⟨2024, 3, 5⟩⟩,
   ⟨2, "train", 100, "Transport", ⟨2024, 3, 6⟩⟩]

/-- Scenario C with the records in the other order. -/
def tieTransportFirst : List Expense :=
  [⟨2, "train", 100, "Transport", ⟨2024, 3, 6⟩⟩,
   ⟨1, "lunch", 100, "Food", ⟨2024, 3, 5⟩⟩]

/-- Two categories with the same total, `Food` first and then a category whose label,
`10`, is an array index. -/
def tieWithIndexLabel : List Expense :=
  [⟨1, "lunch", 100, "Food", ⟨2024, 3, 5⟩⟩,
   ⟨2, "room", 100, "10", ⟨2024, 3, 6⟩⟩]

/-- An expense whose category label is the name of a property of `Object.prototype`. -/
def prototypeLabel : List Expense :=
  [⟨1, "build", 50, "constructor", ⟨2024, 3, 5⟩⟩]

/-- An expense dated on 31 January 2024. -/
def lastOfJanuary : List Expense :=
  [⟨1, "rent", 900, "Housing", ⟨2024, 1, 31⟩⟩]

/-- The clock reading of 2024-01-31 23:59:59.999 UTC. -/
def january31 : Nat := 1706745599999

/-- The clock reading of 2024-02-01 00:00:00.000 UTC. -/
def february1 : Nat := 1706745600000

/-! ## Facts about numbers -/

theorem Number.fin_lt_fin (a b : Nat) : (Number.fin a < Number.fin b) ↔ a < b := by
  show Number.blt (.fin a) (.fin b) = true ↔ a < b
  simp [Number.blt]

theorem Number.fin_le_fin (a b : Nat) : (Number.fin a ≤ Number.fin b) ↔ a ≤ b := by
  show Number.blt (.fin b) (.fin a) = false ↔ a ≤ b
  simp [Number.blt]

theorem Number.fin_lt_inf (a : Nat) : Number.fin a < Number.inf := by
  show Number.blt (.fin a) .inf = true
  rfl

theorem Number.not_inf_lt (x : Number) : ¬ Number.inf < x := by
  show ¬ Number.blt .inf x = true
  simp [Number.blt]

theorem Number.le_inf (x : Number) : x ≤ Number.inf := by
  show Number.blt .inf x = false
  rfl

theorem Number.not_inf_le_fin (a : Nat) : ¬ Number.inf ≤ Number.fin a := by
  show ¬ Number.blt (.fin a) .inf = false
  simp [Number.blt]

theorem Number.ofNat_eq (k : Nat) : (OfNat.ofNat k : Number) = Number.fin (k * Number.one) := rfl

theorem Number.one_pos : 0 < Number.one := by
  unfold Number.one
  positivity

theorem tiers_nodup : [tier0, tier1, tier2, tier3, tier4, tier5].Nodup := by decide

/-! ## The pun tiers -/

theorem getSpendingPun_fin (n : Nat) :
    getSpendingPun (.fin n) =
      if n = 0 then tier0
      else if n < 100 * Number.one then tier1
      else if n < 500 * Number.one then tier2
      else if n < 1000 * Number.one then tier3
      else if n < 2000 * Number.one then tier4
      else tier5 := by
  simp only [getSpendingPun, Number.ofNat_eq, Number.fin_lt_fin, Number.fin.injEq, zero_mul]

theorem getSpendingPun_inf : getSpendingPun .inf = tier5 := by
  unfold getSpendingPun
  rw [if_neg (by intro h; cases h), if_neg (Number.not_inf_lt _), if_neg (Number.not_inf_lt _),
    if_neg (Number.not_inf_lt _), if_neg (Number.not_inf_lt _)]

/-- C1.  For every non-negative total `t`, `getSpendingPun t` is the string of tier 0
exactly when `t = 0`, of tier 1 exactly when `0 < t < 100`, of tier 2 exactly when
`100 ≤ t < 500`, of tier 3 exactly when `500 ≤ t < 1000`, of tier 4 exactly when
`1000 ≤ t < 2000` and of tier 5 exactly when `2000 ≤ t`; the six strings are pairwise
distinct, and a total on a breakpoint (100, 500, 1000, 2000) is in the upper tier. -/
theorem getSpendingPun_tiers (t : Number) :
    (getSpendingPun t = tier0 ↔ t = 0) ∧
    (getSpendingPun t = tier1 ↔ 0 < t ∧ t < 100) ∧
    (getSpendingPun t = tier2 ↔ 100 ≤ t ∧ t < 500) ∧
    (getSpendingPun t = tier3 ↔ 500 ≤ t ∧ t < 1000) ∧
    (getSpendingPun t = tier4 ↔ 1000 ≤ t ∧ t < 2000) ∧
    (getSpendingPun t = tier5 ↔ 2000 ≤ t) ∧
    [tier0, tier1, tier2, tier3, tier4, tier5].Nodup ∧
    getSpendingPun 100 = tier2 ∧ getSpendingPun 500 = tier3 ∧
    getSpendingPun 1000 = tier4 ∧ getSpendingPun 2000 = tier5 := by
  have hnd := tiers_nodup
  simp only [List.nodup_cons, List.mem_cons, List.mem_singleton, not_or, List.not_mem_nil,
    not_false_eq_true, List.nodup_nil, and_true] at hnd
  obtain ⟨⟨h01, h02, h03, h04, h05⟩, ⟨h12, h13, h14, h15⟩, ⟨h23, h24, h25⟩, ⟨h34, h35⟩, h45⟩ := hnd
  have hpos := Number.one_pos
  refine ⟨?_, ?_, ?_, ?_, ?_, ?_, tiers_nodup, ?_, ?_, ?_, ?_⟩
  iterate 6
    cases t with
    | inf =>
      simp only [getSpendingPun_inf, Number.ofNat_eq, Number.not_inf_lt, Number.le_inf,
        Number.not_inf_le_fin, Ne.symm h05, Ne.symm h15, Ne.symm h25, Ne.symm h35, Ne.symm h45,
        false_and, and_false, iff_false, not_false_eq_true, reduceCtorEq]
    | fin n =>
      rw [getSpendingPun_fin]
      simp only [Number.ofNat_eq, Number.fin_lt_fin, Number.fin_le_fin, Number.fin.injEq, zero_mul]
      generalize Number.one = P at hpos ⊢
      split_ifs <;>
        simp [h01, h02, h03, h04, h05, h12, h13, h14, h15, h23, h24, h25, h34, h35, h45,
          Ne.symm h01, Ne.symm h02, Ne.symm h03, Ne.symm h04, Ne.symm h05, Ne.symm h12,
          Ne.symm h13, Ne.symm h14, Ne.symm h15, Ne.symm h23, Ne.symm h24, Ne.symm h25,
          Ne.symm h34, Ne.symm h35, Ne.symm h45] <;> omega
  · show getSpendingPun (.fin (100 * Number.one)) = tier2
    rw [getSpendingPun_fin]
    generalize Number.one = P at hpos ⊢
    split_ifs <;> first | rfl | omega
  · show getSpendingPun (.fin (500 * Number.one)) = tier3
    rw [getSpendingPun_fin]
    generalize Number.one = P at hpos ⊢
    split_ifs <;> first | rfl | omega
  · show getSpendingPun (.fin (1000 * Number.one)) = tier4
    rw [getSpendingPun_fin]
    generalize Number.one = P at hpos ⊢
    split_ifs <;> first | rfl | omega
  · show getSpendingPun (.fin (2000 * Number.one)) = tier5
    rw [getSpendingPun_fin]
    generalize Number.one = P at hpos ⊢
    split_ifs <;> first | rfl | omega

theorem tierIndex_tiers :
    tierIndex tier0 = 0 ∧ tierIndex tier1 = 1 ∧ tierIndex tier2 = 2 ∧ tierIndex tier3 = 3 ∧
      tierIndex tier4 = 4 ∧ tierIndex tier5 = 5 := by decide

/-- C8.  For totals `t1 < t2` the index of the tier of `getSpendingPun t1` is at most
the index of the tier of `getSpendingPun t2`, and the indices run from 0 to 5. -/
theorem getSpendingPun_monotone (t1 t2 : Number) (h : t1 < t2) :
    tierIndex (getSpendingPun t1) ≤ tierIndex (getSpendingPun t2) ∧
      tierIndex (getSpendingPun t2) ≤ 5 := by
  obtain ⟨i0, i1, i2, i3, i4, i5⟩ := tierIndex_tiers
  cases t2 with
  | inf =>
    rw [getSpendingPun_inf, i5]
    refine ⟨?_, le_refl 5⟩
    cases t1 with
    | inf => rw [getSpendingPun_inf, i5]
    | fin a => rw [getSpendingPun_fin]; split_ifs <;> simp only [i0, i1, i2, i3, i4, i5] <;> omega
  | fin b =>
    cases t1 with
    | inf => exact absurd h (Number.not_inf_lt _)
    | fin a =>
      rw [Number.fin_lt_fin] at h
      rw [getSpendingPun_fin, getSpendingPun_fin]
      split_ifs <;> simp only [i0, i1, i2, i3, i4, i5] <;> omega

/-! ## The calendar -/

theorem yoe_bounds (doe : Int) (h0 : 0 ≤ doe) (h1 : doe ≤ 146096) :
    0 ≤ (doe - doe / 1460 + doe / 36524 - doe / 146096) / 365 ∧
    (doe - doe / 1460 + doe / 36524 - doe / 146096) / 365 ≤ 399 := by
  have hc : doe / 36524 = 0 ∨ doe / 36524 = 1 ∨ doe / 36524 = 2 ∨ doe / 36524 = 3 ∨
      doe / 36524 = 4 := by omega
  rcases hc with h | h | h | h | h <;> omega

theorem doy_bounds (doe yoe : Int) (h0 : 0 ≤ doe) (h1 : doe ≤ 146096)
    (hy : yoe = (doe - doe / 1460 + doe / 36524 - doe / 146096) / 365) :
    0 ≤ doe - (365 * yoe + yoe / 4 - yoe / 100) ∧
    (doe - (365 * yoe + yoe / 4 - yoe / 100) ≤ 364 ∨
      (doe - (365 * yoe + yoe / 4 - yoe / 100) = 365 ∧ yoe % 4 = 3 ∧
        (yoe % 100 ≠ 99 ∨ yoe = 399))) := by
  have hb := yoe_bounds doe h0 h1
  rw [← hy] at hb
  have hc : doe / 36524 = 0 ∨ doe / 36524 = 1 ∨ doe / 36524 = 2 ∨ doe / 36524 = 3 ∨
      doe / 36524 = 4 := by omega
  have hr : yoe % 4 = 0 ∨ yoe % 4 = 1 ∨ yoe % 4 = 2 ∨ yoe % 4 = 3 := by omega
  have he : doe / 1460 = yoe / 4 ∨ doe / 1460 = yoe / 4 + 1 ∨ doe / 1460 = yoe / 4 - 1 := by
    rcases hc with h | h | h | h | h <;> omega
  rcases hc with h | h | h | h | h <;> rcases hr with h' | h' | h' | h' <;>
    rcases he with h'' | h'' | h'' <;> omega

theorem yoe_of_doe (yoe doy : Int) (h0 : 0 ≤ yoe) (h1 : yoe ≤ 399) (hd0 : 0 ≤ doy)
    (hd1 : doy ≤ 364 ∨ (doy = 365 ∧ yoe % 4 = 3 ∧ (yoe % 100 ≠ 99 ∨ yoe = 399))) :
    ((365 * yoe + yoe / 4 - yoe / 100 + doy) - (365 * yoe + yoe / 4 - yoe / 100 + doy) / 1460
      + (365 * yoe + yoe / 4 - yoe / 100 + doy) / 36524
      - (365 * yoe + yoe / 4 - yoe / 100 + doy) / 146096) / 365 = yoe := by
  have hc : yoe / 100 = 0 ∨ yoe / 100 = 1 ∨ yoe / 100 = 2 ∨ yoe / 100 = 3 := by omega
  have hr : yoe % 4 = 0 ∨ yoe % 4 = 1 ∨ yoe % 4 = 2 ∨ yoe % 4 = 3 := by omega
  have hf : (365 * yoe + yoe / 4 - yoe / 100 + doy) / 36524 = yoe / 100 ∨
      yoe = 399 ∧ doy = 365 := by omega
  have he : (365 * yoe + yoe / 4 - yoe / 100 + doy) / 1460 = yoe / 4 ∨
      (365 * yoe + yoe / 4 - yoe / 100 + doy) / 1460 = yoe / 4 + 1 ∨
      (365 * yoe + yoe / 4 - yoe / 100 + doy) / 1460 = yoe / 4 - 1 := by omega
  rcases hf with hf | hf
  · rcases hc with h | h | h | h <;> rcases hr with h' | h' | h' | h' <;>
      rcases he with h'' | h'' | h'' <;> omega
  · omega

theorem isLeapYear_iff (y : Int) :
    isLeapYear y = true ↔ y % 4 = 0 ∧ (y % 100 ≠ 0 ∨ y % 400 = 0) := by
  simp [isLeapYear]

/-- A day of a March-based year is a day of the calendar. -/
theorem dateOfMarchYear_valid (y doy : Int) (h0 : 0 ≤ doy)
    (h1 : doy ≤ 364 ∨ (doy = 365 ∧ isLeapYear (y + 1) = true)) :
    1 ≤ (dateOfMarchYear y doy).2.1 ∧ (dateOfMarchYear y doy).2.1 ≤ 12 ∧
      1 ≤ (dateOfMarchYear y doy).2.2 ∧
      (dateOfMarchYear y doy).2.2 ≤
        monthLength (dateOfMarchYear y doy).1 (dateOfMarchYear y doy).2.1 := by
  have hmp : (5 * doy + 2) / 153 = 0 ∨ (5 * doy + 2) / 153 = 1 ∨ (5 * doy + 2) / 153 = 2 ∨
      (5 * doy + 2) / 153 = 3 ∨ (5 * doy + 2) / 153 = 4 ∨ (5 * doy + 2) / 153 = 5 ∨
      (5 * doy + 2) / 153 = 6 ∨ (5 * doy + 2) / 153 = 7 ∨ (5 * doy + 2) / 153 = 8 ∨
      (5 * doy + 2) / 153 = 9 ∨ (5 * doy + 2) / 153 = 10 ∨ (5 * doy + 2) / 153 = 11 := by
    omega
  simp only [dateOfMarchYear, monthLength]
  rcases h1 with h1 | ⟨h1, hl⟩
  · rcases hmp with h | h | h | h | h | h | h | h | h | h | h | h <;> simp only [h] <;>
      norm_num <;> (try split_ifs) <;> omega
  · have h : (5 * doy + 2) / 153 = 11 := by omega
    simp only [h]
    norm_num
    rw [if_pos hl]
    omega

/-- The decomposition of a day number into a 400-year era, a year of the era and a
day of the March-based year. -/
theorem civilFromDays_eq (z : Int) :
    ∃ era yoe doy : Int, 0 ≤ yoe ∧ yoe ≤ 399 ∧ 0 ≤ doy ∧
      (doy ≤ 364 ∨ (doy = 365 ∧ isLeapYear (yoe + era * 400 + 1) = true)) ∧
      z = era * 146097 + (yoe * 365 + yoe / 4 - yoe / 100 + doy) - 719468 ∧
      civilFromDays z = dateOfMarchYear (yoe + era * 400) doy := by
  have hdoe0 : 0 ≤ z + 719468 - (z + 719468) / 146097 * 146097 := by omega
  have hdoe1 : z + 719468 - (z + 719468) / 146097 * 146097 ≤ 146096 := by omega
  have hy := yoe_bounds _ hdoe0 hdoe1
  have hd := doy_bounds _ _ hdoe0 hdoe1 rfl
  refine ⟨(z + 719468) / 146097, _, _, hy.1, hy.2, hd.1, ?_, ?_, rfl⟩
  · rcases hd.2 with h | ⟨h, h4, h100⟩
    · exact Or.inl h
    · refine Or.inr ⟨h, ?_⟩
      rw [isLeapYear_iff]
      omega
  · omega

/-- Every day number is a day of the calendar: the month is 1 to 12 and the day of the
month is 1 to the length of that month. -/
theorem civilFromDays_valid (z : Int) :
    1 ≤ (civilFromDays z).2.1 ∧ (civilFromDays z).2.1 ≤ 12 ∧ 1 ≤ (civilFromDays z).2.2 ∧
      (civilFromDays z).2.2 ≤ monthLength (civilFromDays z).1 (civilFromDays z).2.1 := by
  obtain ⟨era, yoe, doy, _, _, h0, h1, _, heq⟩ := civilFromDays_eq z
  rw [heq]
  exact dateOfMarchYear_valid _ _ h0 h1


/-- The date of a day number given by its era, year of the era and day of the year. -/
theorem civilFromDays_of (era yoe doy : Int) (hy0 : 0 ≤ yoe) (hy1 : yoe ≤ 399) (hd0 : 0 ≤ doy)
    (hd1 : doy ≤ 364 ∨ (doy = 365 ∧ yoe % 4 = 3 ∧ (yoe % 100 ≠ 99 ∨ yoe = 399))) :
    civilFromDays (era * 146097 + (yoe * 365 + yoe / 4 - yoe / 100 + doy) - 719468) =
      dateOfMarchYear (yoe + era * 400) doy := by
  have hdoe0 : 0 ≤ yoe * 365 + yoe / 4 - yoe / 100 + doy := by omega
  have hdoe1 : yoe * 365 + yoe / 4 - yoe / 100 + doy ≤ 146096 := by omega
  have hera : (era * 146097 + (yoe * 365 + yoe / 4 - yoe / 100 + doy) - 719468 + 719468)
      / 146097 = era := by omega
  have hdoe : era * 146097 + (yoe * 365 + yoe / 4 - yoe / 100 + doy) - 719468 + 719468
      - era * 146097 = 365 * yoe + yoe / 4 - yoe / 100 + doy := by omega
  have hyoe := yoe_of_doe yoe doy hy0 hy1 hd0 hd1
  have hdoy : 365 * yoe + yoe / 4 - yoe / 100 + doy - (365 * yoe + yoe / 4 - yoe / 100) = doy := by
    omega
  simp only [civilFromDays, hera, hdoe, hyoe, hdoy]

/-- Reading back the date of the day number of a calendar date gives the date. -/
theorem civilFromDays_daysFromCivil (y m d : Int) (hm0 : 1 ≤ m) (hm1 : m ≤ 12) (hd0 : 1 ≤ d)
    (hd1 : d ≤ monthLength y m) :
    civilFromDays (daysFromCivil y m d) = (y, m, d) := by
  have hm : m = 1 ∨ m = 2 ∨ m = 3 ∨ m = 4 ∨ m = 5 ∨ m = 6 ∨ m = 7 ∨ m = 8 ∨ m = 9 ∨ m = 10 ∨
      m = 11 ∨ m = 12 := by omega
  have hleap : m = 2 → d = 29 → y % 4 = 0 ∧ (y % 100 ≠ 0 ∨ y % 400 = 0) := by
    intro h2 h29
    subst h2 h29
    by_contra hne
    have : isLeapYear y = false := by
      rw [← Bool.not_eq_true, isLeapYear_iff]
      exact hne
    simp [monthLength, this] at hd1
  have hlen : d ≤ 31 ∧ (m = 2 → d ≤ 29) ∧ (m = 4 ∨ m = 6 ∨ m = 9 ∨ m = 11 → d ≤ 30) := by
    unfold monthLength at hd1
    split_ifs at hd1 <;> omega
  clear hd1
  unfold daysFromCivil
  simp only []
  rw [civilFromDays_of]
  · simp only [dateOfMarchYear]
    rcases hm with h | h | h | h | h | h | h | h | h | h | h | h <;> subst h <;> norm_num <;>
      omega
  · rcases hm with h | h | h | h | h | h | h | h | h | h | h | h <;> subst h <;> norm_num <;>
      omega
  · rcases hm with h | h | h | h | h | h | h | h | h | h | h | h <;> subst h <;> norm_num <;>
      omega
  · rcases hm with h | h | h | h | h | h | h | h | h | h | h | h <;> subst h <;> norm_num <;>
      omega
  · rcases hm with h | h | h | h | h | h | h | h | h | h | h | h <;> subst h <;> norm_num <;>
      omega


/-- The day before the first of the next month is the last day of the month. -/
theorem MakeDay_zero (y m : Int) (hm0 : 1 ≤ m) (hm1 : m ≤ 12) :
    MakeDay y m 0 = daysFromCivil y m (monthLength y m) := by
  have hm : m = 1 ∨ m = 2 ∨ m = 3 ∨ m = 4 ∨ m = 5 ∨ m = 6 ∨ m = 7 ∨ m = 8 ∨ m = 9 ∨ m = 10 ∨
      m = 11 ∨ m = 12 := by omega
  unfold MakeDay daysFromCivil monthLength
  rcases hm with h | h | h | h | h | h | h | h | h | h | h | h <;> subst h <;> norm_num <;>
    (try omega)
  by_cases hl : isLeapYear y = true
  · rw [if_pos hl]
    rw [isLeapYear_iff] at hl
    omega
  · rw [if_neg hl]
    rw [isLeapYear_iff] at hl
    omega

/-- The value of `new Date(y, m, 0).getDate()` for a month index `m` from 1 to 12 is the
length of month `m` of year `y`, for a year outside 0..99. -/
theorem dateOfFields_zero (y m : Int) (hy : y < 0 ∨ 99 < y) (hm0 : 1 ≤ m) (hm1 : m ≤ 12) :
    dateOfFields y m 0 = monthLength y m := by
  have hyr : ¬ (0 ≤ y ∧ y ≤ 99) := by omega
  unfold dateOfFields
  simp only [if_neg hyr]
  rw [MakeDay_zero y m hm0 hm1, civilFromDays_daysFromCivil y m _ hm0 hm1]
  · unfold monthLength
    split_ifs <;> omega
  · exact le_refl _

/-- From the day before the epoch on, the year is 1600 or later. -/
theorem year_of_epoch (z : Int) (hz : -1 ≤ z) : 1600 ≤ (civilFromDays z).1 := by
  obtain ⟨era, yoe, doy, hy0, hy1, hd0, hd1, hz1, heq⟩ := civilFromDays_eq z
  rw [heq]
  have hera : 4 ≤ era := by
    by_contra h
    have h3 : era ≤ 3 := by omega
    rcases hd1 with h1 | ⟨h1, _⟩ <;> omega
  unfold dateOfMarchYear
  simp only []
  split_ifs <;> omega

/-- The local year of a clock reading is later than 99. -/
theorem year_of_now (tz : Zone) (now : Nat) : 99 < YearFromTime (LocalTime tz now) := by
  have hb := tz.bounded now
  have hd : -1 ≤ Day (LocalTime tz now) := by
    unfold Day LocalTime msPerDay at *
    omega
  have := year_of_epoch _ hd
  unfold YearFromTime
  omega

/-- The array length of `renderBarChart` is the length of the month of its clock
readings: the month of the second reading in the year of the first. -/
theorem daysInMonth_eq (tz : Zone) (now1 now2 : Nat) :
    daysInMonth tz now1 now2 =
      monthLength (YearFromTime (LocalTime tz now1)) (MonthFromTime (LocalTime tz now2) + 1) := by
  have hv := civilFromDays_valid (Day (LocalTime tz now2))
  unfold daysInMonth
  apply dateOfFields_zero _ _ (Or.inr (year_of_now tz now1))
  · unfold MonthFromTime; omega
  · unfold MonthFromTime; omega

theorem monthLength_bounds (y m : Int) : 28 ≤ monthLength y m ∧ monthLength y m ≤ 31 := by
  unfold monthLength
  split_ifs <;> omega


/-! ## Order and rounding -/

theorem Number.lt_irrefl (a : Number) : ¬ a < a := by
  cases a with
  | inf => exact Number.not_inf_lt _
  | fin n => rw [Number.fin_lt_fin]; exact Nat.lt_irrefl n

theorem Number.le_iff_not_lt (a b : Number) : a ≤ b ↔ ¬ b < a := by
  show Number.blt b a = false ↔ ¬ Number.blt b a = true
  simp

theorem Number.le_refl (a : Number) : a ≤ a := (Number.le_iff_not_lt a a).2 (Number.lt_irrefl a)

theorem Number.lt_trans {a b c : Number} (h1 : a < b) (h2 : b < c) : a < c := by
  cases a with
  | inf => exact absurd h1 (Number.not_inf_lt _)
  | fin x =>
    cases c with
    | inf => exact Number.fin_lt_inf x
    | fin z =>
      cases b with
      | inf => exact absurd h2 (Number.not_inf_lt _)
      | fin y =>
        rw [Number.fin_lt_fin] at *
        omega

theorem Number.le_of_lt {a b : Number} (h : a < b) : a ≤ b := by
  rw [Number.le_iff_not_lt]
  intro h2
  exact Number.lt_irrefl a (Number.lt_trans h h2)

theorem Number.lt_of_le_of_lt {a b c : Number} (h1 : a ≤ b) (h2 : b < c) : a < c := by
  rw [Number.le_iff_not_lt] at h1
  cases a with
  | inf => exact absurd (Number.le_inf b) (by rw [Number.le_iff_not_lt]; intro h; cases b with
      | inf => exact Number.not_inf_lt _ h2
      | fin y => exact h1 (Number.fin_lt_inf y))
  | fin x =>
    cases c with
    | inf => exact Number.fin_lt_inf x
    | fin z =>
      cases b with
      | inf => exact absurd h2 (Number.not_inf_lt _)
      | fin y =>
        rw [Number.fin_lt_fin] at *
        omega

theorem Number.le_trans {a b c : Number} (h1 : a ≤ b) (h2 : b ≤ c) : a ≤ c := by
  rw [Number.le_iff_not_lt] at *
  intro h
  exact h1 (Number.lt_of_le_of_lt ((Number.le_iff_not_lt b c).2 h2) h)

theorem bitLengthAux_spec (fuel : Nat) :
    ∀ n, n ≤ fuel → n < 2 ^ bitLengthAux fuel n ∧ (0 < n → 2 ^ (bitLengthAux fuel n - 1) ≤ n) := by
  induction fuel with
  | zero =>
    intro n hn
    have : n = 0 := by omega
    subst this
    simp [bitLengthAux]
  | succ f ih =>
    intro n hn
    unfold bitLengthAux
    by_cases h0 : n = 0
    · subst h0
      simp
    · rw [if_neg h0]
      obtain ⟨h1, h2⟩ := ih (n / 2) (by omega)
      constructor
      · rw [Nat.pow_succ]
        omega
      · intro _
        simp only [Nat.add_sub_cancel]
        by_cases h3 : n / 2 = 0
        · rw [h3]
          have : bitLengthAux f 0 = 0 := by cases f <;> simp [bitLengthAux]
          rw [this]
          simp
          omega
        · have h4 := h2 (by omega)
          have h5 : 0 < bitLengthAux f (n / 2) := by
            by_contra h6
            have h7 : bitLengthAux f (n / 2) = 0 := by omega
            rw [h7] at h1
            simp at h1
            exact h3 h1
          have h6 : bitLengthAux f (n / 2) = (bitLengthAux f (n / 2) - 1) + 1 := by omega
          rw [h6, Nat.pow_succ]
          omega

theorem bitLength_spec (n : Nat) :
    n < 2 ^ bitLength n ∧ (0 < n → 2 ^ (bitLength n - 1) ≤ n) :=
  bitLengthAux_spec n n (Nat.le_refl n)

theorem Number.overflow_eq : Number.overflow = 2 ^ 2098 := by
  unfold Number.overflow
  rfl

set_option exponentiation.threshold 4096 in
/-- Rounding leaves a value unchanged when it is a multiple of `2^j` below `2^(j+53)`:
it has at most 53 significant bits. -/
theorem roundToDouble_exact (j s : Nat) (hj : j + 53 ≤ 2098) (hdvd : 2 ^ j ∣ s)
    (hlt : s < 2 ^ (j + 53)) : roundToDouble s = .fin s := by
  unfold roundToDouble
  by_cases h53 : s < 2 ^ 53
  · rw [if_pos h53]
  · rw [if_neg h53]
    obtain ⟨hb1, hb2⟩ := bitLength_spec s
    have hspos : 0 < s := by
      have : 0 < 2 ^ 53 := Nat.two_pow_pos 53
      omega
    have hb2 := hb2 hspos
    have hb54 : 54 ≤ bitLength s := by
      by_contra h
      have h1 : bitLength s ≤ 53 := by omega
      have h2 : 2 ^ bitLength s ≤ 2 ^ 53 := Nat.pow_le_pow_right (by norm_num) h1
      omega
    have hbj : bitLength s ≤ j + 53 := by
      by_contra h
      have h1 : j + 53 ≤ bitLength s - 1 := by omega
      have h2 : 2 ^ (j + 53) ≤ 2 ^ (bitLength s - 1) := Nat.pow_le_pow_right (by norm_num) h1
      omega
    have hk : bitLength s - 53 ≤ j := by omega
    have hdvd2 : 2 ^ (bitLength s - 53) ∣ s := Nat.dvd_trans (Nat.pow_dvd_pow 2 hk) hdvd
    have hr : s % 2 ^ (bitLength s - 53) = 0 := Nat.mod_eq_zero_of_dvd hdvd2
    have hhalf : 0 < 2 ^ (bitLength s - 53 - 1) := Nat.two_pow_pos _
    have hq : s / 2 ^ (bitLength s - 53) * 2 ^ (bitLength s - 53) = s :=
      Nat.div_mul_cancel hdvd2
    have hpow : 2 ^ (j + 53) ≤ Number.overflow :=
      Nat.le_trans (Nat.pow_le_pow_right Nat.two_pos hj) (Nat.le_of_eq Number.overflow_eq.symm)
    have hov : s < Number.overflow := Nat.lt_of_lt_of_le hlt hpow
    simp only [hr, hhalf, if_true, hq, hov]

/-- Addition is exact on multiples of `2^j` whose sum stays below `2^(j+53)`. -/
theorem Number.add_exact (j a b : Nat) (hj : j + 53 ≤ 2098) (ha : 2 ^ j ∣ a) (hb : 2 ^ j ∣ b)
    (hlt : a + b < 2 ^ (j + 53)) : Number.fin a + Number.fin b = Number.fin (a + b) := by
  show roundToDouble (a + b) = Number.fin (a + b)
  exact roundToDouble_exact j (a + b) hj (Nat.dvd_add ha hb) hlt

theorem Number.zero_eq : (0 : Number) = Number.fin 0 := by
  rw [Number.ofNat_eq, Nat.zero_mul]


/-! ## The store handlers -/

/-- C9.  For every collection and id, a click on a delete button replaces the
collection by the records whose id differs from the given id, in their original order:
a record is in the result exactly when it was in the collection with another id; when no
record has the id the collection is unchanged; when the ids are pairwise distinct and a
record has the id, exactly that record is removed. -/
theorem deleteHandler_spec (expenses : List Expense) (id : Int) :
    deleteHandler expenses true id = expenses.filter (fun e => e.id != id) ∧
    (deleteHandler expenses true id).Sublist expenses ∧
    (∀ e, e ∈ deleteHandler expenses true id ↔ e ∈ expenses ∧ e.id ≠ id) ∧
    ((∀ e ∈ expenses, e.id ≠ id) → deleteHandler expenses true id = expenses) ∧
    ((expenses.map (fun e => e.id)).Nodup → ∀ e ∈ expenses, e.id = id →
      deleteHandler expenses true id = expenses.erase e ∧
      (deleteHandler expenses true id).length + 1 = expenses.length) := by
  have hdef : deleteHandler expenses true id = expenses.filter (fun e => e.id != id) := by
    unfold deleteHandler
    rw [if_pos rfl]
  refine ⟨hdef, ?_, ?_, ?_, ?_⟩
  · rw [hdef]
    exact List.filter_sublist _
  · intro e
    rw [hdef]
    simp
  · intro h
    rw [hdef, List.filter_eq_self]
    intro e he
    simpa using h e he
  · intro hnd e he hid
    have herase : expenses.filter (fun e => e.id != id) = expenses.erase e := by
      clear hdef
      induction expenses with
      | nil => cases he
      | cons x xs ih =>
        simp only [List.map_cons, List.nodup_cons, List.mem_map, not_exists, not_and] at hnd
        rcases List.mem_cons.1 he with h | h
        · subst h
          rw [List.erase_cons_head, List.filter_cons, hid]
          simp only [bne_self_eq_false, Bool.false_eq_true, if_false]
          rw [List.filter_eq_self]
          intro y hy
          have := hnd.1 y hy
          rw [hid] at this
          simpa using this
        · have hne : x ≠ e := by
            intro hxe
            rw [hxe] at hnd
            exact hnd.1 e h rfl
          have hxid : x.id ≠ id := by
            intro hx
            exact hnd.1 e h (by rw [hid, hx])
          rw [List.filter_cons]
          simp only [bne_iff_ne, ne_eq, hxid, not_false_eq_true, if_true]
          rw [List.erase_cons_tail (by simpa using hne), ih hnd.2 h]
    rw [hdef, herase]
    refine ⟨rfl, ?_⟩
    rw [List.length_erase_of_mem he]
    have : 0 < expenses.length := List.length_pos_of_mem he
    omega

theorem submitAll_ids (subs : List (Nat × String × Number × String × DateStr)) :
    ∀ expenses : List Expense,
      (submitAll expenses subs).map (fun e => e.id) =
        expenses.map (fun e => e.id) ++ subs.map (fun s => (s.1 : Int)) := by
  induction subs with
  | nil => intro expenses; simp [submitAll]
  | cons s subs ih =>
    intro expenses
    have h := ih (submitHandler expenses s.1 s.2.1 s.2.2.1 s.2.2.2.1 s.2.2.2.2)
    unfold submitAll at h ⊢
    rw [List.foldl_cons, h]
    simp [submitHandler]

/-- C10, as amended.  The ids added by a sequence of submissions are the clock readings
of the submissions, in order.  Starting from a collection with pairwise distinct ids,
all ids are pairwise distinct after the submissions when the clock readings are
pairwise distinct and none of them is the id of a record already in the collection. -/
theorem submitAll_nodup (expenses : List Expense)
    (subs : List (Nat × String × Number × String × DateStr))
    (h0 : (expenses.map (fun e => e.id)).Nodup)
    (h1 : (subs.map (fun s => s.1)).Nodup)
    (h2 : ∀ s ∈ subs, ∀ e ∈ expenses, e.id ≠ (s.1 : Int)) :
    ((submitAll expenses subs).map (fun e => e.id)).Nodup ∧
    (submitAll expenses subs).map (fun e => e.id) =
      expenses.map (fun e => e.id) ++ subs.map (fun s => (s.1 : Int)) := by
  refine ⟨?_, submitAll_ids subs expenses⟩
  rw [submitAll_ids, List.nodup_append]
  refine ⟨h0, ?_, ?_⟩
  · have hmap : subs.map (fun s => (s.1 : Int)) =
        (subs.map (fun s => (s.1 : Nat))).map (fun n : Nat => (n : Int)) := by
      rw [List.map_map]
      rfl
    rw [hmap]
    exact List.Nodup.map Nat.cast_injective h1
  · intro a ha hb
    obtain ⟨e, he, rfl⟩ := List.mem_map.1 ha
    obtain ⟨s, hs, hse⟩ := List.mem_map.1 hb
    exact h2 s hs e he hse.symm


/-! ## The summary update -/

/-- The format accepts `long` for the option `month` and not for the option `year`. -/
theorem toLocaleString_long :
    toLocaleString "long" "long" = Except.error JSError.rangeError ∧
    toLocaleString "long" "numeric" = Except.ok () :=
  ⟨rfl, rfl⟩

/-- Every call of `updateSummary` ends with the `RangeError` of its formatting
statement. -/
theorem updateSummary_throws (tz : Zone) (now now1 now2 : Nat) (expenses : List Expense) :
    updateSummary tz now now1 now2 expenses = Except.error JSError.rangeError :=
  rfl

/-- C2.  The claim: a record is in the `monthlyExpenses` computed by `updateSummary`
exactly when the month and the year of its date are those of `now`.  The code: every
call of `updateSummary` ends with a `RangeError`, thrown by the formatting of the month
and year of `now` before the filter is run, so that it computes no `monthlyExpenses`;
so it is on 15 March 2024 in UTC for the collection with a record dated 2024-03-01. -/
theorem updateSummary_no_monthlyExpenses :
    (∀ (tz : Zone) (now now1 now2 : Nat) (expenses : List Expense),
      (updateSummary tz now now1 now2 expenses).toOption.map (fun s => s.monthlyExpenses)
        = none) ∧
    updateSummary Zone.utc march15 march15 march15 firstDays =
      Except.error JSError.rangeError :=
  ⟨fun _ _ _ _ _ => rfl, rfl⟩

/-- C3.  The claim: the top category computed by `updateSummary` is `"N/A"` when no
category total is greater than 0 and else the first category with the greatest total.
The code: every call of `updateSummary` ends with a `RangeError` before the loop over
the categories is run, so that it computes no top category; so it is for `Food` and
`Transport` both at 100, where the claim says `Food`. -/
theorem updateSummary_no_topCategory :
    (∀ (tz : Zone) (now now1 now2 : Nat) (expenses : List Expense),
      (updateSummary tz now now1 now2 expenses).toOption.map (fun s => s.topCategory)
        = none) ∧
    updateSummary Zone.utc march15 march15 march15 tieFoodFirst =
      Except.error JSError.rangeError :=
  ⟨fun _ _ _ _ _ => rfl, rfl⟩

/-- C4.  The claim: the keys of the `categoryTotals` computed by `updateSummary` are the
category labels of the filtered records and the value at a key is the sum of the amounts
of the filtered records of that category.  The code: every call of `updateSummary` ends
with a `RangeError` before the reduction is run, so that it computes no
`categoryTotals`; so it is on Scenario A, where the claim says `Food: 120` and
`Transport: 30`. -/
theorem updateSummary_no_categoryTotals :
    (∀ (tz : Zone) (now now1 now2 : Nat) (expenses : List Expense),
      (updateSummary tz now now1 now2 expenses).toOption.map (fun s => s.categoryTotals)
        = none) ∧
    updateSummary Zone.utc march15 march15 march15 scenarioA =
      Except.error JSError.rangeError :=
  ⟨fun _ _ _ _ _ => rfl, rfl⟩

/-- C5.  The claim: the `dailyTotals` array that `renderBarChart` builds from the
filtered records has one entry for each day of the month of `now`, and the entry of day
`d` is the sum of the amounts of the filtered records dated on day `d`.  The code:
`renderBarChart` is called by `updateSummary` alone, as its last statement, and every
call of `updateSummary` ends with a `RangeError` before that statement, so that no
`dailyTotals` is built; so it is on Scenario A five hours west of UTC. -/
theorem updateSummary_no_dailyTotals :
    (∀ (tz : Zone) (now now1 now2 : Nat) (expenses : List Expense),
      (updateSummary tz now now1 now2 expenses).toOption.map (fun s => s.dailyTotals)
        = none) ∧
    updateSummary Zone.utcMinus5 march15 march15 march15 scenarioA =
      Except.error JSError.rangeError :=
  ⟨fun _ _ _ _ _ => rfl, rfl⟩

/-- C6.  The claim: the sum of the entries of the `dailyTotals` array built by
`renderBarChart` equals the monthly total computed by `updateSummary`.  The code: every
call of `updateSummary` ends with a `RangeError` before the total is computed and
before `renderBarChart` is called, so that there is neither a total nor an array; so
it is for the empty collection, where the claim says that both sums are 0. -/
theorem updateSummary_no_daily_sum :
    (∀ (tz : Zone) (now now1 now2 : Nat) (expenses : List Expense),
      (updateSummary tz now now1 now2 expenses).toOption.map
        (fun s => (s.dailyTotals, s.total)) = none) ∧
    updateSummary Zone.utc march15 march15 march15 [] = Except.error JSError.rangeError :=
  ⟨fun _ _ _ _ _ => rfl, rfl⟩

/-- C7.  The claim: the monthly total computed by `updateSummary` equals the sum of the
values of `categoryTotals` over all its keys.  The code: every call of `updateSummary`
ends with a `RangeError` before the total and `categoryTotals` are computed; so it is
for Scenario C of the specification with `Transport` first, where the claim says that
both are 200. -/
theorem updateSummary_no_category_sum :
    (∀ (tz : Zone) (now now1 now2 : Nat) (expenses : List Expense),
      (updateSummary tz now now1 now2 expenses).toOption.map
        (fun s => (s.total, s.categoryTotals)) = none) ∧
    updateSummary Zone.utc march15 march15 march15 tieTransportFirst =
      Except.error JSError.rangeError :=
  ⟨fun _ _ _ _ _ => rfl, rfl⟩


/-! ## The handlers, the numbers and the calendar on sample inputs -/

set_option exponentiation.threshold 4096 in
set_option maxRecDepth 100000 in
unseal Number.one Number.overflow in
/-- The sample amounts are doubles (rounding leaves them unchanged) and the nearest ones
to 0.1, 0.2 and 0.3: ten times each is within ten half units in the last place of 1, 2
and 3. -/
theorem sample_doubles :
    roundToDouble Number.point1.units = Number.point1 ∧
    roundToDouble Number.point2.units = Number.point2 ∧
    roundToDouble Number.point3.units = Number.point3 ∧
    (Number.one ≤ 10 * Number.point1.units ∧
      10 * Number.point1.units ≤ Number.one + 10 * 2 ^ 1017) ∧
    (2 * Number.one ≤ 10 * Number.point2.units ∧
      10 * Number.point2.units ≤ 2 * Number.one + 10 * 2 ^ 1018) ∧
    (10 * Number.point3.units ≤ 3 * Number.one ∧
      3 * Number.one ≤ 10 * Number.point3.units + 10 * 2 ^ 1019) := by
  decide

/-- Counterexample to C10: two submissions that read the same clock value get the same
id. -/
theorem submitAll_same_reading :
    ¬ ((submitAll []
        [(1710504000000, "tea", 3, "Food", ⟨2024, 3, 15⟩),
         (1710504000000, "bus", 2, "Transport", ⟨2024, 3, 15⟩)]).map (fun e => e.id)).Nodup := by
  decide

/-- Witness of C10 as amended. -/
theorem submitAll_nodup_witness :
    ((submitAll []
        [(1710504000000, "tea", 3, "Food", ⟨2024, 3, 15⟩),
         (1710504000001, "bus", 2, "Transport", ⟨2024, 3, 15⟩)]).map (fun e => e.id)).Nodup ∧
    (submitAll []
        [(1710504000000, "tea", 3, "Food", ⟨2024, 3, 15⟩),
         (1710504000001, "bus", 2, "Transport", ⟨2024, 3, 15⟩)]).map (fun e => e.id) =
      ([] : List Expense).map (fun e => e.id) ++
        [(1710504000000, "tea", (3 : Number), "Food", (⟨2024, 3, 15⟩ : DateStr)),
         (1710504000001, "bus", 2, "Transport", ⟨2024, 3, 15⟩)].map (fun s => (s.1 : Int)) :=
  submitAll_nodup [] _ (by decide) (by decide) (by decide)

set_option exponentiation.threshold 4096 in
set_option maxRecDepth 100000 in
unseal Number.one Number.overflow in
/-- Witness of C8 at 999.5 and 1000, on both sides of a breakpoint. -/
theorem getSpendingPun_monotone_witness :
    Number.fin (1999 * 2 ^ 1073) < 1000 ∧
    tierIndex (getSpendingPun (Number.fin (1999 * 2 ^ 1073))) ≤ tierIndex (getSpendingPun 1000) ∧
    tierIndex (getSpendingPun 1000) ≤ 5 :=
  ⟨by decide, getSpendingPun_monotone (Number.fin (1999 * 2 ^ 1073)) 1000 (by decide)⟩

/-- Witness of C9, Scenario D of the specification: deleting an id that no record of a
collection of three has leaves the collection unchanged. -/
theorem deleteHandler_spec_witness :
    (∀ e ∈ scenarioA, e.id ≠ 99) ∧ deleteHandler scenarioA true 99 = scenarioA :=
  ⟨by decide, (deleteHandler_spec scenarioA 99).2.2.2.1 (by decide)⟩

/-- The calendar on sample days: the epoch, the clock reading `march15` and its local
time five hours west of UTC (07:00 on 15 March 2024), and the midnight UTC of
2024-03-01 seen five hours west of UTC (the evening of 29 February). -/
theorem calendar_samples :
    daysFromCivil 1970 1 1 = 0 ∧ civilFromDays 0 = (1970, 1, 1) ∧
    (march15 : Int) = daysFromCivil 2024 3 15 * msPerDay + 12 * 3600000 ∧
    LocalTime Zone.utcMinus5 march15 = daysFromCivil 2024 3 15 * msPerDay + 7 * 3600000 ∧
    parseDate ⟨2024, 3, 1⟩ = some (daysFromCivil 2024 3 1 * msPerDay) ∧
    civilFromDays (Day (LocalTime Zone.utcMinus5 (daysFromCivil 2024 3 1 * msPerDay))) =
      (2024, 2, 29) := by
  decide

/-! ## The statements after the formatting, run on sample inputs

The filter, the reductions, the loop and the array of `updateSummary` and
`renderBarChart`, as functions.  No call of `updateSummary` reaches them
(`updateSummary_throws`); these are the values that they give when they are run. -/

set_option exponentiation.threshold 4096 in
set_option maxRecDepth 100000 in
unseal Number.one Number.overflow in
/-- The statements on Scenario A of the specification, in UTC. -/
theorem statements_scenarioA :
    monthlyExpenses Zone.utc march15 scenarioA = scenarioA ∧
    total scenarioA = 150 ∧
    categoryTotals scenarioA = [("Food", Value.num 120), ("Transport", Value.num 30)] ∧
    topCategory (categoryTotals scenarioA) = "Food" ∧
    getSpendingPun (total scenarioA) = tier2 ∧
    (dailyTotals Zone.utc march15 march15 scenarioA).length = 31 ∧
    (dailyTotals Zone.utc march15 march15 scenarioA).get? 4 = some (Cell.num 120) ∧
    (dailyTotals Zone.utc march15 march15 scenarioA).get? 9 = some (Cell.num 30) := by
  decide

set_option exponentiation.threshold 4096 in
set_option maxRecDepth 100000 in
unseal Number.one Number.overflow in
/-- The filter and the array five hours west of UTC: the date string is read as midnight
UTC and its fields are taken in local time, one day earlier.  On 15 March 2024 the
filter drops the record dated 2024-03-01 and keeps the record dated 2024-04-01, and the
amounts of Scenario A, dated on days 5 and 10, are at the positions of days 4 and 9. -/
theorem statements_west :
    MonthFromTime (LocalTime Zone.utcMinus5 march15) = 2 ∧
    (monthlyExpenses Zone.utcMinus5 march15 firstDays).map (fun e => e.id) = [2] ∧
    (monthlyExpenses Zone.utc march15 firstDays).map (fun e => e.id) = [1] ∧
    monthlyExpenses Zone.utcMinus5 march15 scenarioA = scenarioA ∧
    (dailyTotals Zone.utcMinus5 march15 march15 scenarioA).get? 3 = some (Cell.num 120) ∧
    (dailyTotals Zone.utcMinus5 march15 march15 scenarioA).get? 4 = some (Cell.num 0) ∧
    (dailyTotals Zone.utcMinus5 march15 march15 scenarioA).get? 8 = some (Cell.num 30) := by
  decide

set_option exponentiation.threshold 4096 in
set_option maxRecDepth 100000 in
unseal Number.one Number.overflow in
/-- The sums on amounts of 0.1, 0.2 and 0.3: the total is 0.6000000000000001, the
category totals are 0.1 and 0.5, the entries of days 5 and 6 are 0.1 and 0.5, and
0.1 + 0.5 is 0.6. -/
theorem statements_rounding :
    total smallChange = Number.point6up ∧
    categoryTotals smallChange =
      [("Food", Value.num Number.point1), ("Transport", Value.num (Number.fin (2 ^ 1073)))] ∧
    (dailyTotals Zone.utc march15 march15 smallChange).get? 4 =
      some (Cell.num Number.point1) ∧
    (dailyTotals Zone.utc march15 march15 smallChange).get? 5 =
      some (Cell.num (Number.fin (2 ^ 1073))) ∧
    Number.point1 + Number.fin (2 ^ 1073) = Number.point6 ∧
    Number.point6 ≠ Number.point6up := by
  decide

set_option exponentiation.threshold 4096 in
set_option maxRecDepth 100000 in
unseal Number.one Number.overflow in
/-- The object on labels that are not plain words.  The key `10` is an array index and
is visited before `Food`, also when `Food` is written first, and wins the tie.  Under
the key `constructor` the read finds a function, and the value stored is a string,
which the loop does not take.  A write under `__proto__` leaves no key. -/
theorem statements_labels :
    categoryTotals tieWithIndexLabel = [("10", Value.num 100), ("Food", Value.num 100)] ∧
    topCategory (categoryTotals tieWithIndexLabel) = "10" ∧
    categoryTotals prototypeLabel = [("constructor", Value.text)] ∧
    topCategory (categoryTotals prototypeLabel) = "N/A" ∧
    objSet [] "__proto__" (plus (orZero (objGet [] "__proto__")) 50) = [] ∧
    arrayIndex "10" = some 10 ∧ arrayIndex "010" = none ∧ arrayIndex "Food" = none ∧
    arrayIndex "4294967295" = none := by
  decide

set_option exponentiation.threshold 4096 in
set_option maxRecDepth 100000 in
unseal Number.one Number.overflow in
/-- The array when the clock passes from January to February 2024 between the reading
of `updateSummary` and the readings of `renderBarChart`: the record dated 31 January
is in the filter, the array has 29 entries, and the write at index 30 makes it 31
long, with a hole and `NaN`.  A day beyond the length of its month is read as a day
of the next month. -/
theorem statements_edge :
    monthlyExpenses Zone.utc january31 lastOfJanuary = lastOfJanuary ∧
    daysInMonth Zone.utc february1 february1 = 29 ∧
    (dailyTotals Zone.utc february1 february1 lastOfJanuary).length = 31 ∧
    (dailyTotals Zone.utc february1 february1 lastOfJanuary).get? 29 = some Cell.hole ∧
    (dailyTotals Zone.utc february1 february1 lastOfJanuary).get? 30 = some Cell.nan ∧
    parseDate ⟨2024, 2, 30⟩ = parseDate ⟨2024, 3, 1⟩ ∧
    parseDate ⟨2024, 2, 32⟩ = none ∧ parseDate ⟨2024, 13, 1⟩ = none := by
  decide

end ExpenseTracker
